import Mathlib

/-!
Shallow embedding of the ElementCache orchestrator from
openslides/utils/cache.py, together with a cache provider backend modelled
from the specification of the CacheProvider contract (the provider
implementation lives outside this source tree; only its contract is given).

Elements are JSON documents; json.dumps/json.loads round-trips, so the
stores hold the structured values directly. All operations are pure state
transformers; a raised exception is represented together with the state at
the point of the raise, and a poll loop on a lock that no other task of a
sequential run will ever release is represented by a distinguished
`blocked` outcome.
-/

/-- JSON-compatible values held by cache elements. -/
inductive JVal : Type where
  | n : Int → JVal
  | s : String → JVal
  | obj : List (String × JVal) → JVal

/-- Python dict lookup on an insertion-ordered association list. -/
def alLookup {κ β : Type} [DecidableEq κ] : List (κ × β) → κ → Option β
  | [], _ => none
  | (k, v) :: rest, key => if k = key then some v else alLookup rest key

/-- Python dict assignment: replace in place when the key exists, else append. -/
def alSet {κ β : Type} [DecidableEq κ] : List (κ × β) → κ → β → List (κ × β)
  | [], key, v => [(key, v)]
  | (k, w) :: rest, key, v =>
    if k = key then (key, v) :: rest else (k, w) :: alSet rest key v

/-- Python dict deletion (a missing key is silently ignored here). -/
def alDel {κ β : Type} [DecidableEq κ] (l : List (κ × β)) (key : κ) : List (κ × β) :=
  l.filter (fun p => decide (p.1 ≠ key))

/-- Split a character list at every colon (str.split of Python). -/
def splitOnColon : List Char → List (List Char)
  | [] => [[]]
  | c :: rest =>
    match splitOnColon rest with
    | [] => [[c]]
    | seg :: segs => if c = ':' then [] :: seg :: segs else (c :: seg) :: segs

/-- Join character segments with colons (inverse of splitOnColon). -/
def joinColon : List (List Char) → List Char
  | [] => []
  | [seg] => seg
  | seg :: segs => seg ++ ':' :: joinColon segs

def parseDigitsAux : List Char → Nat → Option Nat
  | [], acc => some acc
  | c :: rest, acc =>
    if c.isDigit then parseDigitsAux rest (acc * 10 + (c.toNat - '0'.toNat)) else none

/-- Parse a nonempty run of decimal digits. -/
def parseDigits : List Char → Option Nat
  | [] => none
  | l => parseDigitsAux l 0

/-- Python int() on a decimal string with an optional leading minus sign. -/
def parseIntChars : List Char → Option Int
  | '-' :: rest => (parseDigits rest).map (fun m => -(m : Int))
  | l => (parseDigits l).map (fun m => (m : Int))

/-- str.startswith check over character lists. -/
def startsWithChars : List Char → List Char → Bool
  | _, [] => true
  | [], _ :: _ => false
  | c :: rest, d :: ds => c == d && startsWithChars rest ds

/-- utils.get_element_id: the COLLECTIONSTRING:ID composite key. -/
def get_element_id (collection_string : String) (id : Int) : String :=
  collection_string ++ ":" ++ toString id

/-- utils.split_element_id: rsplit on the last colon and parse the id part.
Cache keys are well formed; a malformed id part is modelled as 0. -/
def split_element_id (element_id : String) : String × Int :=
  let segs := splitOnColon element_id.data
  (String.mk (joinColon segs.dropLast), (parseIntChars (segs.getLastD [])).getD 0)

/-- First-occurrence deduplication; makes the Python set iteration of the
source deterministic by following list order. -/
def dedupFirst {α : Type} [DecidableEq α] (seen : List α) : List α → List α
  | [] => []
  | x :: xs => if x ∈ seen then dedupFirst seen xs else x :: dedupFirst (x :: seen) xs

/-- Python truthiness of an optional JSON value (None, 0, the empty string
and the empty object are falsy). -/
def pyTruthy : Option JVal → Bool
  | none => false
  | some (JVal.n i) => i != 0
  | some (JVal.s str) => !(str.data.isEmpty)
  | some (JVal.obj fields) => !(fields.isEmpty)

/-- element["id"]: elements carry an integer id field; a missing or
non-integer field is modelled as 0 (never hit by well-formed elements). -/
def getId : JVal → Int
  | JVal.obj fields =>
    match alLookup fields "id" with
    | some (JVal.n i) => i
    | _ => 0
  | _ => 0

/-- defaultdict(list) style out[key].append(v). -/
def groupAppend {β : Type} (out : List (String × List β)) (key : String) (v : β) :
    List (String × List β) :=
  match alLookup out key with
  | some l => alSet out key (l ++ [v])
  | none => out ++ [(key, [v])]

/-- Modelled from the spec: the CacheProvider backend state (the provider
implementation is not part of this source tree, only its contract).
full_data is the FullDataStore, change_index the ChangeIndex entries
(score, member) in insertion order, counter the provider-owned ChangeId
counter, restricted_data the per-user RestrictedDataStore mappings, and
locks the currently held named locks. -/
@[ext]
structure ProviderState : Type where
  full_data : List (String × JVal)
  change_index : List (Int × String)
  counter : Option Int
  restricted_data : List (Int × List (String × JVal))
  locks : List String

/-- Modelled from the spec: whether a (full or per-user) store has been
initialized at all. -/
def ProviderState.data_exists (p : ProviderState) (user_id : Option Int) : Bool :=
  match user_id with
  | none => !(p.full_data.isEmpty)
  | some uid =>
    match alLookup p.restricted_data uid with
    | some store => !(store.isEmpty)
    | none => false

/-- Modelled from the spec: non-blocking try-acquire of a named lock. -/
def ProviderState.set_lock (p : ProviderState) (lock_name : String) : ProviderState × Bool :=
  if p.locks.contains lock_name then (p, false)
  else ({ p with locks := lock_name :: p.locks }, true)

/-- Modelled from the spec: poll whether a named lock is held. -/
def ProviderState.get_lock (p : ProviderState) (lock_name : String) : Bool :=
  p.locks.contains lock_name

/-- Modelled from the spec: release a named lock (no ownership check). -/
def ProviderState.del_lock (p : ProviderState) (lock_name : String) : ProviderState :=
  { p with locks := p.locks.filter (fun n => n != lock_name) }

/-- Modelled from the spec: atomically replace the entire FullDataStore. -/
def ProviderState.reset_full_cache (p : ProviderState) (mapping : List (String × JVal)) :
    ProviderState :=
  { p with full_data := mapping }

/-- Modelled from the spec: upsert entries in the FullDataStore. -/
def ProviderState.add_elements (p : ProviderState) (pairs : List (String × JVal)) :
    ProviderState :=
  { p with full_data := pairs.foldl (fun fd kv => alSet fd kv.1 kv.2) p.full_data }

/-- Modelled from the spec: remove entries from the FullDataStore (no user)
or from one RestrictedDataStore (user given). -/
def ProviderState.del_elements (p : ProviderState) (ids : List String) (user_id : Option Int) :
    ProviderState :=
  match user_id with
  | none => { p with full_data := ids.foldl alDel p.full_data }
  | some uid =>
    match alLookup p.restricted_data uid with
    | none => p
    | some store =>
      { p with restricted_data := alSet p.restricted_data uid (ids.foldl alDel store) }

/-- Modelled from the spec: atomically obtain the next ChangeId (seeding the
provider-owned counter with default_change_id only when no counter exists
yet) and record a ChangeIndex entry for every given element id. -/
def ProviderState.add_changed_elements (p : ProviderState) (default_change_id : Int)
    (element_ids : List String) : ProviderState × Int :=
  let change_id :=
    match p.counter with
    | none => default_change_id
    | some c => c + 1
  ({ p with
      counter := some change_id,
      change_index := p.change_index ++ element_ids.map (fun i => (change_id, i)) },
   change_id)

/-- Modelled from the spec: snapshot of the full namespace or of one user
namespace. -/
def ProviderState.get_all_data (p : ProviderState) (user_id : Option Int) :
    List (String × JVal) :=
  match user_id with
  | none => p.full_data
  | some uid => (alLookup p.restricted_data uid).getD []

/-- Modelled from the spec: the lowest recorded ChangeId, or none. -/
def ProviderState.get_lowest_change_id (p : ProviderState) : Option Int :=
  p.change_index.foldl
    (fun acc e =>
      match acc with
      | none => some e.1
      | some m => some (min m e.1)) none

/-- Modelled from the spec: the highest recorded ChangeId, or none. -/
def ProviderState.get_current_change_id (p : ProviderState) : Option Int :=
  p.change_index.foldl
    (fun acc e =>
      match acc with
      | none => some e.1
      | some m => some (max m e.1)) none

/-- Modelled from the spec: the last recorded ChangeId of one ChangeIndex
member. -/
def lastScore (index : List (Int × String)) (element_id : String) : Option Int :=
  ((index.filter (fun e => e.2 == element_id)).getLast?).map (fun e => e.1)

/-- One member of the relevant range of getDataSince: looked up in the
store it lands in the grouped changed output, a miss lands in the deleted
list. -/
def sinceStep (store : List (String × JVal))
    (acc : (List (String × List JVal)) × List String) (eid : String) :
    (List (String × List JVal)) × List String :=
  match alLookup store eid with
  | some v => (groupAppend acc.1 (split_element_id eid).1 v, acc.2)
  | none => (acc.1, acc.2 ++ [eid])

/-- Modelled from the spec: every element whose last recorded ChangeId lies
in [change_id, max_change_id] (upper bound dropped when max_change_id = -1),
grouped by collection from the selected store; a member of the range missing
from the store is reported in the deleted list instead. -/
def ProviderState.get_data_since (p : ProviderState) (change_id : Int) (user_id : Option Int)
    (max_change_id : Int) : (List (String × List JVal)) × List String :=
  let store := p.get_all_data user_id
  let members := dedupFirst [] (p.change_index.map (fun e => e.2))
  let relevant := members.filter (fun eid =>
    match lastScore p.change_index eid with
    | none => false
    | some sc => decide (change_id ≤ sc) && (max_change_id == -1 || decide (sc ≤ max_change_id)))
  relevant.foldl (sinceStep store) ([], [])

/-- Modelled from the spec: the stored sentinel value recording the ChangeId
of one user projection, or none. -/
def ProviderState.get_change_id_user (p : ProviderState) (user_id : Int) : Option JVal :=
  match alLookup p.restricted_data user_id with
  | none => none
  | some store => alLookup store "_config:change_id"

/-- Modelled from the spec: upsert the given mapping into one user store. -/
def ProviderState.update_restricted_data (p : ProviderState) (user_id : Int)
    (mapping : List (String × JVal)) : ProviderState :=
  let store := (alLookup p.restricted_data user_id).getD []
  { p with
      restricted_data :=
        alSet p.restricted_data user_id (mapping.foldl (fun s kv => alSet s kv.1 kv.2) store) }

/-- Modelled from the spec: drop one user store entirely. -/
def ProviderState.del_restricted_data (p : ProviderState) (user_id : Int) : ProviderState :=
  { p with restricted_data := alDel p.restricted_data user_id }

/-- An external data and permission provider for one collection (the
Cachable interface). get_elements and restrict_elements are calls into
foreign code and may raise, modelled by Except. -/
structure Cachable : Type where
  collection_string : String
  get_elements : Except String (List JVal)
  restrict_elements : Int → List JVal → Except String (List JVal)

/-- The ElementCache instance state: construction flags plus the provider
backend. -/
@[ext]
structure CacheState : Type where
  use_restricted_data_cache : Bool
  start_time : Int
  ensured : Bool
  provider : ProviderState

/-- Result of one ElementCache operation run to completion in a sequential
model: a value, a propagated exception with the state at the raise, or an
endless poll on a lock no other task of the run will release. -/
inductive Res (α : Type) : Type where
  | ok : α → Res α
  | error : String → CacheState → Res α
  | blocked : Res α

def ensureChangeMsg : String :=
  "Call element_cache.ensure_cache before changing elements."

def ensureRestrictedMsg : String :=
  "Call element_cache.ensure_cache before updating restricted data."

def noChangeIdMsg : String := "There is no known change_id."

/-- The RuntimeError message of the stale-read refusal. -/
def staleMsg (change_id lowest_change_id : Int) : String :=
  "change_id " ++ toString change_id ++ " is lower then the lowest change_id in redis "
    ++ toString lowest_change_id
    ++ ". Catch this exception and rerun the method with change_id=0."

/-- The per-user refresh lock name. -/
def restrictedLockName (user_id : Int) : String :=
  "restricted_data_" ++ toString user_id

/-- The cache build loop of ElementCache.ensure_cache: serialize every
element of every cachable into one mapping; a raise aborts the build. -/
def buildCacheMapping : List Cachable → List (String × JVal) →
    Except String (List (String × JVal))
  | [], mapping => Except.ok mapping
  | cachable :: rest, mapping =>
    match cachable.get_elements with
    | Except.error e => Except.error e
    | Except.ok elements =>
      buildCacheMapping rest
        (elements.foldl
          (fun m element =>
            alSet m (get_element_id cachable.collection_string (getId element)) element)
          mapping)

/-- ElementCache.ensure_cache. The build lock is released on success or
failure (try/finally); a raise from the build propagates after the release
and leaves ensured unset. Losing the lock race means polling a lock that a
sequential run never releases. -/
def ensure_cache (cachables : List Cachable) (st : CacheState) (reset : Bool) :
    Res CacheState :=
  if reset || !(st.provider.data_exists none) then
    match st.provider.set_lock "ensure_cache" with
    | (p, true) =>
      match buildCacheMapping cachables [] with
      | Except.error e => Res.error e { st with provider := p.del_lock "ensure_cache" }
      | Except.ok mapping =>
        Res.ok
          { st with
              provider := (p.reset_full_cache mapping).del_lock "ensure_cache",
              ensured := true }
    | (_, false) => Res.blocked
  else Res.ok { st with ensured := true }

/-- The partition loop of ElementCache.change_elements: a truthy value is an
upsert, a falsy value (None, and also an empty document) a deletion. -/
def partitionElements : List (String × Option JVal) → (List (String × JVal)) × List String
  | [] => ([], [])
  | (element_id, data) :: rest =>
    let r := partitionElements rest
    if pyTruthy data then ((element_id, data.getD (JVal.obj [])) :: r.1, r.2)
    else (r.1, element_id :: r.2)

/-- The write phase of ElementCache.change_elements: add_elements for the
upsert partition (when nonempty), then del_elements for the deletion
partition (when nonempty). -/
def applyChanges (p : ProviderState) (parts : (List (String × JVal)) × List String) :
    ProviderState :=
  let p1 := if !parts.1.isEmpty then p.add_elements parts.1 else p
  if !parts.2.isEmpty then p1.del_elements parts.2 none else p1

/-- ElementCache.change_elements. -/
def change_elements (st : CacheState) (elements : List (String × Option JVal)) :
    Res (CacheState × Int) :=
  if !st.ensured then Res.error ensureChangeMsg st
  else
    let r := (applyChanges st.provider (partitionElements elements)).add_changed_elements
      (st.start_time + 1) (elements.map (fun e => e.1))
    Res.ok ({ st with provider := r.1 }, r.2)

/-- ElementCache.get_all_full_data_ordered: group the full store by
collection, keyed by element id within a collection. -/
def get_all_full_data_ordered (st : CacheState) : List (String × List (Int × JVal)) :=
  st.provider.full_data.foldl
    (fun out kv =>
      let ci := split_element_id kv.1
      alSet out ci.1 (alSet ((alLookup out ci.1).getD []) ci.2 kv.2)) []

/-- ElementCache.get_all_full_data: group the full store by collection. -/
def get_all_full_data (st : CacheState) : List (String × List JVal) :=
  (get_all_full_data_ordered st).foldl
    (fun out cd => cd.2.foldl (fun out2 iv => groupAppend out2 cd.1 iv.2) out) []

/-- ElementCache.get_current_change_id: highest recorded ChangeId, falling
back to the construction-time start_time. -/
def get_current_change_id (st : CacheState) : Int :=
  match st.provider.get_current_change_id with
  | none => st.start_time
  | some c => c

/-- ElementCache.get_lowest_change_id; the Python truthiness test treats a
missing and a zero lowest change id alike. -/
def get_lowest_change_id (st : CacheState) : Except String Int :=
  match st.provider.get_lowest_change_id with
  | none => Except.error noChangeIdMsg
  | some v => if v == 0 then Except.error noChangeIdMsg else Except.ok v

/-- ElementCache.get_full_data. Reads only; never mutates the state. -/
def get_full_data (st : CacheState) (change_id : Int) (max_change_id : Int) :
    Except String ((List (String × List JVal)) × List String) :=
  if change_id == 0 then Except.ok (get_all_full_data st, [])
  else
    match get_lowest_change_id st with
    | Except.error e => Except.error e
    | Except.ok lowest_change_id =>
      if change_id < lowest_change_id then
        Except.error (staleMsg change_id lowest_change_id)
      else Except.ok (st.provider.get_data_since change_id none max_change_id)

/-- The recorded change id of one user, read from the sentinel key:
int(value) if value else -1. -/
def userChangeId (st : CacheState) (user_id : Int) : Int :=
  match st.provider.get_change_id_user user_id with
  | some (JVal.n c) => c
  | _ => -1

/-- The per-collection restriction loop of ElementCache.update_restricted_data:
accumulates the upsert mapping and the deletion list (ids the user lost
visibility of); a missing cachable or a raising restricter propagates. -/
def restrictLoop (cachables : List Cachable) (user_id : Int) :
    List (String × List JVal) → List (String × JVal) → List String →
    Except String ((List (String × JVal)) × List String)
  | [], mapping, deleted_elements => Except.ok (mapping, deleted_elements)
  | (collection_string, full_data) :: rest, mapping, deleted_elements =>
    match cachables.find? (fun c => c.collection_string == collection_string) with
    | none => Except.error ("KeyError: " ++ collection_string)
    | some cachable =>
      match cachable.restrict_elements user_id full_data with
      | Except.error e => Except.error e
      | Except.ok restricted_elements =>
        let full_data_ids := dedupFirst [] (full_data.map getId)
        let restricted_data_ids := restricted_elements.map getId
        let lost :=
          (full_data_ids.filter (fun i => !(restricted_data_ids.contains i))).map
            (fun i => get_element_id collection_string i)
        let mapping2 :=
          restricted_elements.foldl
            (fun m element =>
              alSet m (get_element_id collection_string (getId element)) element)
            mapping
        restrictLoop cachables user_id rest mapping2 (deleted_elements ++ lost)

/-- The critical section of ElementCache.update_restricted_data, entered
with the refresh lock already acquired: st1 carries the provider state with
the lock held. A raise from the loop leaves the lock held in the error
state; the lock is released only on the two normal exits. -/
def refreshCore (cachables : List Cachable) (st1 : CacheState) (user_id : Int) :
    Res CacheState :=
  let user_change_id := userChangeId st1 user_id
  let change_id := get_current_change_id st1
  if change_id > user_change_id then
    match
      (match get_full_data st1 (user_change_id + 1) (-1) with
       | Except.ok fd => (fd.1, fd.2, st1.provider)
       | Except.error _ =>
         (get_all_full_data st1, ([] : List String),
          st1.provider.del_restricted_data user_id))
    with
    | (full_data_elements, deleted_elements0, p2) =>
      match restrictLoop cachables user_id full_data_elements [] deleted_elements0 with
      | Except.error e => Res.error e { st1 with provider := p2 }
      | Except.ok md =>
        let mapping := alSet md.1 "_config:change_id" (JVal.n change_id)
        let p3 := p2.update_restricted_data user_id mapping
        let p4 := if !md.2.isEmpty then p3.del_elements md.2 (some user_id) else p3
        Res.ok { st1 with provider := p4.del_lock (restrictedLockName user_id) }
  else Res.ok { st1 with provider := st1.provider.del_lock (restrictedLockName user_id) }

/-- ElementCache.update_restricted_data. The disabled-cache check precedes
the ensured check; after the try-acquire of the refresh lock the work
continues in refreshCore on the state holding the lock. -/
def update_restricted_data (cachables : List Cachable) (st : CacheState) (user_id : Int) :
    Res CacheState :=
  if !st.use_restricted_data_cache then Res.ok st
  else if !st.ensured then Res.error ensureRestrictedMsg st
  else
    match st.provider.set_lock (restrictedLockName user_id) with
    | (_, false) => Res.blocked
    | (p1, true) => refreshCore cachables { st with provider := p1 } user_id

/-- The live filter loop of the disabled-cache branch of
ElementCache.get_all_restricted_data. -/
def liveRestrictLoop (cachables : List Cachable) (user_id : Int) :
    List (String × List JVal) → List (String × List JVal) →
    Except String (List (String × List JVal))
  | [], out => Except.ok out
  | (collection_string, full_data) :: rest, out =>
    match cachables.find? (fun c => c.collection_string == collection_string) with
    | none => Except.error ("KeyError: " ++ collection_string)
    | some cachable =>
      match cachable.restrict_elements user_id full_data with
      | Except.error e => Except.error e
      | Except.ok elements =>
        liveRestrictLoop cachables user_id rest (alSet out collection_string elements)

/-- The snapshot loop of ElementCache.get_all_restricted_data: group one
user store by collection, skipping every key that starts with _config. -/
def restrictedSnapshot (store : List (String × JVal)) : List (String × List JVal) :=
  store.foldl
    (fun out kv =>
      if startsWithChars kv.1.data "_config".data then out
      else groupAppend out (split_element_id kv.1).1 kv.2) []

/-- ElementCache.get_all_restricted_data. -/
def get_all_restricted_data (cachables : List Cachable) (st : CacheState) (user_id : Int) :
    Res (CacheState × List (String × List JVal)) :=
  if !st.use_restricted_data_cache then
    match liveRestrictLoop cachables user_id (get_all_full_data st) [] with
    | Except.error e => Res.error e st
    | Except.ok all_restricted_data => Res.ok (st, all_restricted_data)
  else
    match update_restricted_data cachables st user_id with
    | Res.error e st2 => Res.error e st2
    | Res.blocked => Res.blocked
    | Res.ok st2 => Res.ok (st2, restrictedSnapshot (st2.provider.get_all_data (some user_id)))

/-- The delta filter loop of the disabled-cache branch of
ElementCache.get_restricted_data: filter each changed collection, append
visibility-loss ids to the deleted list, keep nonempty collections only. -/
def deltaRestrictLoop (cachables : List Cachable) (user_id : Int) :
    List (String × List JVal) → List (String × List JVal) → List String →
    Except String ((List (String × List JVal)) × List String)
  | [], restricted_data, deleted_elements => Except.ok (restricted_data, deleted_elements)
  | (collection_string, full_data) :: rest, restricted_data, deleted_elements =>
    match cachables.find? (fun c => c.collection_string == collection_string) with
    | none => Except.error ("KeyError: " ++ collection_string)
    | some cachable =>
      match cachable.restrict_elements user_id full_data with
      | Except.error e => Except.error e
      | Except.ok elements =>
        let full_data_ids := dedupFirst [] (full_data.map getId)
        let restricted_data_ids := elements.map getId
        let lost :=
          (full_data_ids.filter (fun i => !(restricted_data_ids.contains i))).map
            (fun i => get_element_id collection_string i)
        let restricted_data2 :=
          if !elements.isEmpty then alSet restricted_data collection_string elements
          else restricted_data
        deltaRestrictLoop cachables user_id rest restricted_data2 (deleted_elements ++ lost)

/-- ElementCache.get_restricted_data. -/
def get_restricted_data (cachables : List Cachable) (st : CacheState) (user_id : Int)
    (change_id : Int) (max_change_id : Int) :
    Res (CacheState × ((List (String × List JVal)) × List String)) :=
  if change_id == 0 then
    match get_all_restricted_data cachables st user_id with
    | Res.error e st2 => Res.error e st2
    | Res.blocked => Res.blocked
    | Res.ok r => Res.ok (r.1, (r.2, []))
  else if !st.use_restricted_data_cache then
    match get_full_data st change_id max_change_id with
    | Except.error e => Res.error e st
    | Except.ok cd =>
      match deltaRestrictLoop cachables user_id cd.1 [] cd.2 with
      | Except.error e => Res.error e st
      | Except.ok rd => Res.ok (st, rd)
  else
    match get_lowest_change_id st with
    | Except.error e => Res.error e st
    | Except.ok lowest_change_id =>
      if change_id < lowest_change_id then Res.error (staleMsg change_id lowest_change_id) st
      else
        match update_restricted_data cachables st user_id with
        | Res.error e st2 => Res.error e st2
        | Res.blocked => Res.blocked
        | Res.ok st2 =>
          Res.ok (st2, st2.provider.get_data_since change_id (some user_id) max_change_id)

/-- A sequence of change_elements calls committed one after another,
collecting the returned ChangeIds. -/
def runChangeBatches : CacheState → List (List (String × Option JVal)) →
    Res (CacheState × List Int)
  | st, [] => Res.ok (st, [])
  | st, batch :: rest =>
    match change_elements st batch with
    | Res.error e st2 => Res.error e st2
    | Res.blocked => Res.blocked
    | Res.ok r =>
      match runChangeBatches r.1 rest with
      | Res.error e st2 => Res.error e st2
      | Res.blocked => Res.blocked
      | Res.ok r2 => Res.ok (r2.1, r.2 :: r2.2)

/-! Concrete states used to exercise the operations. -/

def elTitleA : JVal := JVal.obj [("id", JVal.n 1), ("title", JVal.s "A")]

def elTitleB : JVal := JVal.obj [("id", JVal.n 1), ("title", JVal.s "B")]

def motionCachable : Cachable :=
  { collection_string := "motion",
    get_elements := Except.ok [elTitleA],
    restrict_elements := fun _ els => Except.ok els }

def scenarioCachables : List Cachable := [motionCachable]

def emptyProvider : ProviderState :=
  { full_data := [], change_index := [], counter := none, restricted_data := [], locks := [] }

def scenarioStart : CacheState :=
  { use_restricted_data_cache := false, start_time := 100, ensured := false,
    provider := emptyProvider }

def scenarioAfterBuild : CacheState :=
  { use_restricted_data_cache := false, start_time := 100, ensured := true,
    provider := { emptyProvider with full_data := [("motion:1", elTitleA)] } }

def scenarioAfterChange : CacheState :=
  { use_restricted_data_cache := false, start_time := 100, ensured := true,
    provider := { emptyProvider with
                  full_data := [("motion:1", elTitleB)],
                  change_index := [(101, "motion:1")],
                  counter := some 101 } }

def scenarioAfterDelete : CacheState :=
  { use_restricted_data_cache := false, start_time := 100, ensured := true,
    provider := { emptyProvider with
                  full_data := [],
                  change_index := [(101, "motion:1"), (102, "motion:1")],
                  counter := some 102 } }

/-- The state left behind by a successful incremental refresh pass of
update_restricted_data: the user store receives the filtered mapping plus
the sentinel and then the deletions, and the refresh lock is cycled. -/
def refreshedState (st : CacheState) (uid : Int) (mapping2 : List (String × JVal))
    (deleted2 : List String) (cur : Int) : CacheState :=
  { st with provider :=
    { st.provider with
        restricted_data := alSet st.provider.restricted_data uid
          (deleted2.foldl alDel
            ((alSet mapping2 "_config:change_id" (JVal.n cur)).foldl
              (fun s kv => alSet s kv.1 kv.2)
              ((alLookup st.provider.restricted_data uid).getD []))),
        locks := (restrictedLockName uid :: st.provider.locks).filter
          (fun n => n != restrictedLockName uid) } }

def motionHiddenCachable : Cachable :=
  { collection_string := "motion",
    get_elements := Except.ok [elTitleA],
    restrict_elements := fun _ _ => Except.ok [] }

def hiddenCachables : List Cachable := [motionHiddenCachable]

def restrictedStale : CacheState :=
  { use_restricted_data_cache := true, start_time := 100, ensured := true,
    provider := { emptyProvider with
                  full_data := [("motion:1", elTitleB)],
                  change_index := [(101, "motion:1")],
                  counter := some 101,
                  restricted_data :=
                    [(7, [("motion:1", elTitleB), ("_config:change_id", JVal.n 100)])] } }

/-- Plain grouping of a store by collection, with no key skipped. -/
def snapshotGroupAll (store : List (String × JVal)) : List (String × List JVal) :=
  store.foldl (fun out kv => groupAppend out (split_element_id kv.1).1 kv.2) []

def motionFailingCachable : Cachable :=
  { collection_string := "motion",
    get_elements := Except.ok [elTitleA],
    restrict_elements := fun _ _ => Except.error "boom" }

def failingCachables : List Cachable := [motionFailingCachable]

/-! Theorems. -/

/-- C1: end-to-end scenario. After building the cache from the single
element motion:1 with title A, change_elements to title B returns a change
id c1 and get_full_data at c1 returns the changed element with no
deletions; a subsequent change_elements mapping motion:1 to None returns
c2 > c1, and get_full_data at c2 returns no data and reports motion:1
deleted. -/
theorem scenario_end_to_end :
    ∃ (stR st1 : CacheState) (c1 : Int) (st2 : CacheState) (c2 : Int),
      ensure_cache scenarioCachables scenarioStart false = Res.ok stR ∧
      change_elements stR [("motion:1", some elTitleB)] = Res.ok (st1, c1) ∧
      get_full_data st1 c1 (-1) = Except.ok ([("motion", [elTitleB])], []) ∧
      change_elements st1 [("motion:1", none)] = Res.ok (st2, c2) ∧
      c1 < c2 ∧
      get_full_data st2 c2 (-1) = Except.ok ([], ["motion:1"]) :=
  ⟨scenarioAfterBuild, scenarioAfterChange, 101, scenarioAfterDelete, 102,
    rfl, rfl, rfl, rfl, by decide, rfl⟩

/-- C6: calling change_elements before ensure_cache raises the
initialization-order error immediately; the error state is exactly the
input state, so the provider (FullDataStore and ChangeIndex) is unchanged
and no ChangeId was consumed. -/
theorem change_elements_before_ensure (st : CacheState)
    (elements : List (String × Option JVal)) (h : st.ensured = false) :
    change_elements st elements = Res.error ensureChangeMsg st := by
  simp [change_elements, h]

theorem change_elements_before_ensure_witness :
    scenarioStart.ensured = false ∧
    change_elements scenarioStart [("motion:1", some elTitleB)] =
      Res.error ensureChangeMsg scenarioStart :=
  ⟨rfl, change_elements_before_ensure scenarioStart [("motion:1", some elTitleB)] rfl⟩

/-- C7: for change id 0, get_full_data returns the full snapshot
get_all_full_data with an empty deletion list, for every state (in
particular it never consults the low-water mark, so it succeeds even when
the ChangeIndex is empty). -/
theorem get_full_data_zero (st : CacheState) (max_change_id : Int) :
    get_full_data st 0 max_change_id = Except.ok (get_all_full_data st, []) := rfl

/-- C9: when the restricted-data cache is disabled, update_restricted_data
returns at once without error for every user and every state, even one
where ensure_cache was never called; the initialization-order error can
only arise with restricted caching enabled. -/
theorem update_restricted_data_disabled (cachables : List Cachable) (st : CacheState)
    (user_id : Int) (h : st.use_restricted_data_cache = false) :
    update_restricted_data cachables st user_id = Res.ok st := by
  simp [update_restricted_data, h]

theorem update_restricted_data_disabled_witness :
    scenarioStart.use_restricted_data_cache = false ∧
    scenarioStart.ensured = false ∧
    update_restricted_data [] scenarioStart 7 = Res.ok scenarioStart :=
  ⟨rfl, rfl, update_restricted_data_disabled [] scenarioStart 7 rfl⟩

/-- C2: with a known low-water mark L, get_full_data refuses every change
id strictly between 0 and L with the stale-read error that instructs the
caller to rerun with change id 0, and at the exact boundary change id L it
does not raise and returns the delta of get_data_since. -/
theorem low_water_mark_boundary (st : CacheState) (change_id max_change_id L : Int)
    (hL : get_lowest_change_id st = Except.ok L) :
    (0 < change_id → change_id < L →
      get_full_data st change_id max_change_id = Except.error (staleMsg change_id L)) ∧
    (change_id = L →
      get_full_data st change_id max_change_id =
        Except.ok (st.provider.get_data_since change_id none max_change_id)) := by
  have hLne : L ≠ 0 := by
    unfold get_lowest_change_id at hL
    rcases hmin : st.provider.get_lowest_change_id with _ | v <;> rw [hmin] at hL
    · exact absurd hL (by simp)
    · by_cases hv : v = 0
      · rw [hv] at hL; exact absurd hL (by simp)
      · simp [hv] at hL; omega
  constructor
  · intro h0 hlt
    have hne : (change_id == 0) = false := by simp; omega
    simp [get_full_data, hne, hL, hlt]
  · intro heq
    subst heq
    have hne : (change_id == 0) = false := by simp [hLne]
    simp [get_full_data, hne, hL]

theorem low_water_mark_boundary_witness :
    get_lowest_change_id scenarioAfterDelete = Except.ok 101 ∧
    get_full_data scenarioAfterDelete 3 (-1) = Except.error (staleMsg 3 101) ∧
    get_full_data scenarioAfterDelete 101 (-1) =
      Except.ok (scenarioAfterDelete.provider.get_data_since 101 none (-1)) :=
  ⟨rfl,
   (low_water_mark_boundary scenarioAfterDelete 3 (-1) 101 rfl).1 (by decide) (by decide),
   (low_water_mark_boundary scenarioAfterDelete 101 (-1) 101 rfl).2 rfl⟩

theorem counter_preserved_del (p : ProviderState) (ids : List String) (u : Option Int) :
    (p.del_elements ids u).counter = p.counter := by
  rcases u with _ | uid
  · rfl
  · rcases h : alLookup p.restricted_data uid with _ | store <;>
      simp [ProviderState.del_elements, h]

theorem applyChanges_counter (p : ProviderState)
    (parts : (List (String × JVal)) × List String) :
    (applyChanges p parts).counter = p.counter := by
  simp only [applyChanges]
  split
  · rw [counter_preserved_del]; split <;> rfl
  · split <;> rfl

theorem change_elements_counter (st : CacheState) (batch : List (String × Option JVal))
    (st2 : CacheState) (cid : Int) (h : change_elements st batch = Res.ok (st2, cid)) :
    st2.provider.counter = some cid := by
  unfold change_elements at h
  split at h
  · exact absurd h (by simp)
  · simp only [Res.ok.injEq, Prod.mk.injEq] at h
    obtain ⟨h1, h2⟩ := h
    subst h1; subst h2
    rfl

theorem change_elements_cid_some (st : CacheState) (batch : List (String × Option JVal))
    (st2 : CacheState) (cid c : Int) (hc : st.provider.counter = some c)
    (h : change_elements st batch = Res.ok (st2, cid)) : cid = c + 1 := by
  unfold change_elements at h
  split at h
  · exact absurd h (by simp)
  · simp only [Res.ok.injEq, Prod.mk.injEq] at h
    obtain ⟨h1, h2⟩ := h
    rw [← h2]
    show (ProviderState.add_changed_elements _ _ _).2 = _
    unfold ProviderState.add_changed_elements
    rw [applyChanges_counter, hc]

theorem run_cids_lower (st : CacheState) (bs : List (List (String × Option JVal)))
    (st2 : CacheState) (cids : List Int) (c : Int)
    (h : runChangeBatches st bs = Res.ok (st2, cids)) (hc : st.provider.counter = some c) :
    ∀ x ∈ cids, c < x := by
  induction bs generalizing st st2 cids c with
  | nil =>
    unfold runChangeBatches at h
    simp only [Res.ok.injEq, Prod.mk.injEq] at h
    obtain ⟨_, h2⟩ := h
    subst h2
    intro x hx
    exact absurd hx (by simp)
  | cons b bs ih =>
    unfold runChangeBatches at h
    split at h
    · exact absurd h (by simp)
    · exact absurd h (by simp)
    · rename_i r hce
      split at h
      · exact absurd h (by simp)
      · exact absurd h (by simp)
      · rename_i r2 hrb
        simp only [Res.ok.injEq, Prod.mk.injEq] at h
        obtain ⟨h1, h2⟩ := h
        subst h2
        intro x hx
        have hstep : c < r.2 := by
          have hcid := change_elements_cid_some st b r.1 r.2 c hc hce
          omega
        rcases List.mem_cons.mp hx with rfl | hx2
        · exact hstep
        · have hcnt : r.1.provider.counter = some r.2 :=
            change_elements_counter st b r.1 r.2 hce
          exact lt_trans hstep (ih r.1 r2.1 r2.2 r.2 hrb hcnt x hx2)

/-- C3: for any sequence of change_elements calls committed one after
another, the returned ChangeIds are strictly increasing, each later call
returning a strictly larger ChangeId than every earlier call; the counter
is threaded through the provider state, not re-derived per call. -/
theorem change_ids_strictly_increasing (st : CacheState)
    (bs : List (List (String × Option JVal))) (st2 : CacheState) (cids : List Int)
    (h : runChangeBatches st bs = Res.ok (st2, cids)) :
    List.Pairwise (fun a b => a < b) cids := by
  induction bs generalizing st st2 cids with
  | nil =>
    unfold runChangeBatches at h
    simp only [Res.ok.injEq, Prod.mk.injEq] at h
    obtain ⟨_, h2⟩ := h
    subst h2
    exact List.Pairwise.nil
  | cons b bs ih =>
    unfold runChangeBatches at h
    split at h
    · exact absurd h (by simp)
    · exact absurd h (by simp)
    · rename_i r hce
      split at h
      · exact absurd h (by simp)
      · exact absurd h (by simp)
      · rename_i r2 hrb
        simp only [Res.ok.injEq, Prod.mk.injEq] at h
        obtain ⟨h1, h2⟩ := h
        subst h2
        refine List.Pairwise.cons ?_ (ih r.1 r2.1 r2.2 hrb)
        intro x hx
        have hcnt : r.1.provider.counter = some r.2 :=
          change_elements_counter st b r.1 r.2 hce
        exact run_cids_lower r.1 bs r2.1 r2.2 r.2 hrb hcnt x hx

theorem change_ids_strictly_increasing_witness :
    runChangeBatches scenarioAfterBuild
        [[("motion:1", some elTitleB)], [("motion:1", none)]] =
      Res.ok (scenarioAfterDelete, [101, 102]) ∧
    List.Pairwise (fun a b => a < b) [(101 : Int), 102] :=
  ⟨rfl, change_ids_strictly_increasing scenarioAfterBuild
    [[("motion:1", some elTitleB)], [("motion:1", none)]] scenarioAfterDelete [101, 102] rfl⟩

/-- C4 counterexample: an entry whose value is the non-null empty document
is partitioned as a deletion, not an upsert — change_elements on a store
holding motion:1 removes the element when the update maps motion:1 to the
empty document. -/
theorem empty_document_counts_as_deletion :
    pyTruthy (some (JVal.obj [])) = false ∧
    partitionElements [("motion:1", some (JVal.obj []))] = ([], ["motion:1"]) ∧
    (∃ st2 cid,
      change_elements scenarioAfterChange [("motion:1", some (JVal.obj []))] =
        Res.ok (st2, cid) ∧
      alLookup st2.provider.full_data "motion:1" = none) :=
  ⟨rfl, rfl, _, _, rfl, rfl⟩

theorem partitionElements_spec (elements : List (String × Option JVal)) :
    (partitionElements elements).1 =
        (elements.filter (fun e => pyTruthy e.2)).map (fun e => (e.1, e.2.getD (JVal.obj []))) ∧
    (partitionElements elements).2 =
        (elements.filter (fun e => !(pyTruthy e.2))).map (fun e => e.1) := by
  induction elements with
  | nil => exact ⟨rfl, rfl⟩
  | cons e rest ih =>
    obtain ⟨ih1, ih2⟩ := ih
    by_cases ht : pyTruthy e.2
    · constructor <;> simp [partitionElements, List.filter_cons, ht, ih1, ih2]
    · constructor <;> simp [partitionElements, List.filter_cons, ht, ih1, ih2]

/-- C4 amended: change_elements partitions updates by Python truthiness:
exactly the entries with a truthy (non-null, nonempty) value are the
upserts applied through add_elements, and exactly the entries with a null
or empty (falsy) value are removed through del_elements — so an entry
whose value is the empty document is treated as a deletion, not an
upsert. -/
theorem change_elements_partition (st : CacheState)
    (elements : List (String × Option JVal)) (st2 : CacheState) (cid : Int)
    (h : change_elements st elements = Res.ok (st2, cid)) :
    (partitionElements elements).1 =
        (elements.filter (fun e => pyTruthy e.2)).map (fun e => (e.1, e.2.getD (JVal.obj []))) ∧
    (partitionElements elements).2 =
        (elements.filter (fun e => !(pyTruthy e.2))).map (fun e => e.1) ∧
    st2.provider.full_data =
      ((elements.filter (fun e => !(pyTruthy e.2))).map (fun e => e.1)).foldl alDel
        (((elements.filter (fun e => pyTruthy e.2)).map
            (fun e => (e.1, e.2.getD (JVal.obj [])))).foldl
          (fun fd kv => alSet fd kv.1 kv.2) st.provider.full_data) := by
  obtain ⟨hp1, hp2⟩ := partitionElements_spec elements
  refine ⟨hp1, hp2, ?_⟩
  unfold change_elements at h
  split at h
  · exact absurd h (by simp)
  · simp only [Res.ok.injEq, Prod.mk.injEq] at h
    obtain ⟨h1, h2⟩ := h
    subst h1
    show (ProviderState.add_changed_elements _ _ _).1.full_data = _
    unfold ProviderState.add_changed_elements
    show (applyChanges st.provider (partitionElements elements)).full_data = _
    rw [← hp1, ← hp2]
    simp only [applyChanges]
    split
    · split
      · rfl
      · rename_i hne
        simp only [Bool.not_eq_true', Bool.not_eq_false] at hne
        rw [List.isEmpty_iff.mp hne]
        rfl
    · rename_i hne
      simp only [Bool.not_eq_true', Bool.not_eq_false] at hne
      rw [List.isEmpty_iff.mp hne]
      split
      · rfl
      · rename_i hne2
        simp only [Bool.not_eq_true', Bool.not_eq_false] at hne2
        rw [List.isEmpty_iff.mp hne2]
        rfl

theorem change_elements_partition_witness :
    (∃ st2 cid,
      change_elements scenarioAfterBuild
          [("motion:1", some elTitleB), ("agenda:2", none)] = Res.ok (st2, cid) ∧
      (partitionElements [("motion:1", some elTitleB), ("agenda:2", none)]).1 =
          [("motion:1", elTitleB)] ∧
      (partitionElements [("motion:1", some elTitleB), ("agenda:2", none)]).2 =
          ["agenda:2"] ∧
      st2.provider.full_data = [("motion:1", elTitleB)]) := by
  refine ⟨_, _, rfl, ?_, ?_, ?_⟩
  · exact (change_elements_partition scenarioAfterBuild
      [("motion:1", some elTitleB), ("agenda:2", none)] _ _ rfl).1
  · exact (change_elements_partition scenarioAfterBuild
      [("motion:1", some elTitleB), ("agenda:2", none)] _ _ rfl).2.1
  · rw [(change_elements_partition scenarioAfterBuild
      [("motion:1", some elTitleB), ("agenda:2", none)] _ _ rfl).2.2]
    rfl

theorem alLookup_alSet_self {κ β : Type} [DecidableEq κ] (l : List (κ × β)) (k : κ) (v : β) :
    alLookup (alSet l k v) k = some v := by
  induction l with
  | nil => simp [alSet, alLookup]
  | cons p rest ih =>
    obtain ⟨a, b⟩ := p
    by_cases h : a = k
    · simp [alSet, h, alLookup]
    · simp [alSet, h, alLookup, ih]

theorem alLookup_alSet_ne {κ β : Type} [DecidableEq κ] (l : List (κ × β)) (k k2 : κ) (v : β)
    (h : k2 ≠ k) : alLookup (alSet l k v) k2 = alLookup l k2 := by
  induction l with
  | nil => simp [alSet, alLookup, h, Ne.symm h]
  | cons p rest ih =>
    obtain ⟨a, b⟩ := p
    by_cases ha : a = k
    · subst ha
      simp [alSet, alLookup, h, Ne.symm h]
    · by_cases ha2 : a = k2
      · simp [alSet, ha, alLookup, ha2, h]
      · simp [alSet, ha, alLookup, ha2, ih]

theorem alSet_append {κ β : Type} [DecidableEq κ] (l : List (κ × β)) (k : κ) (v : β)
    (h : alLookup l k = none) : alSet l k v = l ++ [(k, v)] := by
  induction l with
  | nil => simp [alSet]
  | cons p rest ih =>
    obtain ⟨a, b⟩ := p
    by_cases ha : a = k
    · simp [alLookup, ha] at h
    · simp [alLookup, ha] at h
      simp [alSet, ha, ih h]

theorem alLookup_alDel_self {κ β : Type} [DecidableEq κ] (l : List (κ × β)) (k : κ) :
    alLookup (alDel l k) k = none := by
  induction l with
  | nil => rfl
  | cons p rest ih =>
    obtain ⟨a, b⟩ := p
    by_cases ha : a = k
    · simpa [alDel, List.filter, ha] using ih
    · simpa [alDel, List.filter, ha, alLookup] using ih

theorem alLookup_alDel_ne {κ β : Type} [DecidableEq κ] (l : List (κ × β)) (k k2 : κ)
    (h : k2 ≠ k) : alLookup (alDel l k) k2 = alLookup l k2 := by
  induction l with
  | nil => rfl
  | cons p rest ih =>
    obtain ⟨a, b⟩ := p
    by_cases ha : a = k
    · subst ha
      simpa [alDel, List.filter, alLookup, Ne.symm h] using ih
    · by_cases ha2 : a = k2
      · simp [alDel, List.filter, ha, alLookup, ha2, h]
      · simpa [alDel, List.filter, ha, alLookup, ha2] using ih

theorem foldDel_none {κ β : Type} [DecidableEq κ] (ids : List κ) (l : List (κ × β)) (k : κ)
    (h : alLookup l k = none) : alLookup (ids.foldl alDel l) k = none := by
  induction ids generalizing l with
  | nil => exact h
  | cons i rest ih =>
    by_cases hik : k = i
    · subst hik
      exact ih (alDel l k) (alLookup_alDel_self l k)
    · exact ih (alDel l i) ((alLookup_alDel_ne l i k hik).trans h)

theorem foldDel_mem {κ β : Type} [DecidableEq κ] (ids : List κ) (l : List (κ × β)) (k : κ)
    (h : k ∈ ids) : alLookup (ids.foldl alDel l) k = none := by
  induction ids generalizing l with
  | nil => exact absurd h (by simp)
  | cons i rest ih =>
    by_cases hik : k = i
    · subst hik
      exact foldDel_none rest (alDel l k) k (alLookup_alDel_self l k)
    · rcases List.mem_cons.mp h with h1 | h2
      · exact absurd h1 hik
      · exact ih (alDel l i) h2

theorem foldDel_not_mem {κ β : Type} [DecidableEq κ] (ids : List κ) (l : List (κ × β)) (k : κ)
    (h : ¬ k ∈ ids) : alLookup (ids.foldl alDel l) k = alLookup l k := by
  induction ids generalizing l with
  | nil => rfl
  | cons i rest ih =>
    have hik : k ≠ i := fun he => h (by simp [he])
    have hrest : ¬ k ∈ rest := fun he => h (by simp [he])
    rw [List.foldl_cons, ih (alDel l i) hrest, alLookup_alDel_ne l i k hik]

theorem alSet_alSet {κ β : Type} [DecidableEq κ] (l : List (κ × β)) (k : κ) (a b : β) :
    alSet (alSet l k a) k b = alSet l k b := by
  induction l with
  | nil => simp [alSet]
  | cons p rest ih =>
    obtain ⟨x, y⟩ := p
    by_cases hx : x = k
    · simp [alSet, hx]
    · simp [alSet, hx, ih]

theorem dedupFirst_mem {α : Type} [DecidableEq α] (l : List α) (seen : List α) (x : α) :
    x ∈ dedupFirst seen l ↔ (x ∈ l ∧ ¬ x ∈ seen) := by
  induction l generalizing seen with
  | nil => simp [dedupFirst]
  | cons y ys ih =>
    by_cases hy : y ∈ seen
    · rw [dedupFirst, if_pos hy, ih]
      constructor
      · rintro ⟨h1, h2⟩
        exact ⟨List.mem_cons_of_mem y h1, h2⟩
      · rintro ⟨h1, h2⟩
        rcases List.mem_cons.mp h1 with rfl | h3
        · exact absurd hy h2
        · exact ⟨h3, h2⟩
    · rw [dedupFirst, if_neg hy]
      by_cases hxy : x = y
      · subst hxy
        simp [hy]
      · constructor
        · intro h1
          rcases List.mem_cons.mp h1 with rfl | h2
          · exact absurd rfl hxy
          · have := (ih (y :: seen)).mp h2
            exact ⟨List.mem_cons_of_mem y this.1, fun hs => this.2 (List.mem_cons_of_mem y hs)⟩
        · rintro ⟨h1, h2⟩
          rcases List.mem_cons.mp h1 with rfl | h3
          · exact absurd rfl hxy
          · refine List.mem_cons_of_mem y ((ih (y :: seen)).mpr ⟨h3, ?_⟩)
            intro hs
            rcases List.mem_cons.mp hs with rfl | h4
            · exact hxy rfl
            · exact h2 h4

theorem restrictLoop_deleted_mono (cachables : List Cachable) (uid : Int)
    (fd : List (String × List JVal)) (m : List (String × JVal)) (d : List String)
    (m2 : List (String × JVal)) (d2 : List String)
    (h : restrictLoop cachables uid fd m d = Except.ok (m2, d2)) :
    ∀ x ∈ d, x ∈ d2 := by
  induction fd generalizing m d with
  | nil =>
    unfold restrictLoop at h
    simp only [Except.ok.injEq, Prod.mk.injEq] at h
    obtain ⟨_, h2⟩ := h
    subst h2
    exact fun x hx => hx
  | cons cf rest ih =>
    obtain ⟨coll, colData⟩ := cf
    unfold restrictLoop at h
    split at h
    · exact absurd h (by simp)
    · rename_i cab hfind
      split at h
      · exact absurd h (by simp)
      · rename_i restr hrestr
        intro x hx
        exact ih _ _ h x (List.mem_append_left _ hx)

theorem restrictLoop_lost_mem (cachables : List Cachable) (uid : Int)
    (fd : List (String × List JVal)) (m : List (String × JVal)) (d : List String)
    (m2 : List (String × JVal)) (d2 : List String)
    (coll : String) (colData : List JVal) (cab : Cachable) (restr : List JVal) (item_id : Int)
    (h : restrictLoop cachables uid fd m d = Except.ok (m2, d2))
    (hmem : (coll, colData) ∈ fd)
    (hfind : cachables.find? (fun c => c.collection_string == coll) = some cab)
    (hrestr : cab.restrict_elements uid colData = Except.ok restr)
    (hid : item_id ∈ colData.map getId)
    (hlost : ¬ item_id ∈ restr.map getId) :
    get_element_id coll item_id ∈ d2 := by
  induction fd generalizing m d with
  | nil => exact absurd hmem (by simp)
  | cons cf rest ih =>
    obtain ⟨coll0, colData0⟩ := cf
    unfold restrictLoop at h
    split at h
    · exact absurd h (by simp)
    · rename_i cab0 hfind0
      split at h
      · exact absurd h (by simp)
      · rename_i restr0 hrestr0
        rcases List.mem_cons.mp hmem with heq | hmem2
        · injection heq with hc hd
          subst hc; subst hd
          rw [hfind0] at hfind
          injection hfind with hcab
          subst hcab
          rw [hrestr0] at hrestr
          injection hrestr with hrestr2
          subst hrestr2
          refine restrictLoop_deleted_mono cachables uid rest _ _ m2 d2 h _
            (List.mem_append_right d ?_)
          refine List.mem_map_of_mem (fun i => get_element_id coll i)
            (List.mem_filter.mpr ⟨?_, ?_⟩)
          · exact (dedupFirst_mem (colData.map getId) [] item_id).mpr ⟨hid, by simp⟩
          · simpa using hlost
        · exact ih _ _ h hmem2

theorem filter_ne_of_not_contains (l : List String) (a : String)
    (h : l.contains a = false) : l.filter (fun n => n != a) = l := by
  induction l with
  | nil => rfl
  | cons x xs ih =>
    simp only [List.contains_cons, Bool.or_eq_false_iff] at h
    obtain ⟨h1, h2⟩ := h
    have hne : a ≠ x := by simpa using h1
    have hxa : (x != a) = true := bne_iff_ne.mpr (Ne.symm hne)
    simp [List.filter_cons, hxa, ih h2]

theorem refreshCore_refresh_ok (cachables : List Cachable) (st1 : CacheState) (uid : Int)
    (ucid cur : Int) (fd : List (String × List JVal)) (del0 : List String)
    (mapping2 : List (String × JVal)) (deleted2 : List String)
    (h_ucid : userChangeId st1 uid = ucid)
    (h_cur : get_current_change_id st1 = cur)
    (h_gt : ucid < cur)
    (h_fd : get_full_data st1 (ucid + 1) (-1) = Except.ok (fd, del0))
    (h_loop : restrictLoop cachables uid fd [] del0 = Except.ok (mapping2, deleted2)) :
    refreshCore cachables st1 uid = Res.ok
      { st1 with provider :=
        { st1.provider with
            restricted_data := alSet st1.provider.restricted_data uid
              (deleted2.foldl alDel
                ((alSet mapping2 "_config:change_id" (JVal.n cur)).foldl
                  (fun s kv => alSet s kv.1 kv.2)
                  ((alLookup st1.provider.restricted_data uid).getD []))),
            locks := st1.provider.locks.filter (fun n => n != restrictedLockName uid) } } := by
  simp only [refreshCore]
  rw [h_ucid, h_cur, if_pos h_gt, h_fd]
  simp only [h_loop]
  by_cases hni : deleted2.isEmpty
  · rw [List.isEmpty_iff.mp hni]
    simp only [List.isEmpty_nil, Bool.not_true, Bool.false_eq_true, if_false,
      ProviderState.update_restricted_data, ProviderState.del_lock, List.foldl_nil]
  · simp only [Bool.not_eq_true', Bool.not_eq_false]
    rw [if_pos (by simp [hni])]
    simp only [ProviderState.del_elements, ProviderState.update_restricted_data]
    rw [alLookup_alSet_self]
    simp only [ProviderState.del_lock, alSet_alSet]

theorem refreshCore_skip (cachables : List Cachable) (st1 : CacheState) (uid : Int)
    (ucid cur : Int)
    (h_ucid : userChangeId st1 uid = ucid)
    (h_cur : get_current_change_id st1 = cur)
    (h_le : cur ≤ ucid) :
    refreshCore cachables st1 uid =
      Res.ok { st1 with provider := st1.provider.del_lock (restrictedLockName uid) } := by
  simp only [refreshCore]
  rw [h_ucid, h_cur, if_neg (not_lt.mpr h_le)]

theorem refreshCore_error (cachables : List Cachable) (st1 : CacheState) (uid : Int)
    (ucid cur : Int) (fd : List (String × List JVal)) (del0 : List String) (e : String)
    (h_ucid : userChangeId st1 uid = ucid)
    (h_cur : get_current_change_id st1 = cur)
    (h_gt : ucid < cur)
    (h_fd : get_full_data st1 (ucid + 1) (-1) = Except.ok (fd, del0))
    (h_loop : restrictLoop cachables uid fd [] del0 = Except.error e) :
    refreshCore cachables st1 uid = Res.error e st1 := by
  simp only [refreshCore]
  rw [h_ucid, h_cur, if_pos h_gt, h_fd]
  simp only [h_loop]

theorem update_restricted_data_locked (cachables : List Cachable) (st : CacheState)
    (user_id : Int)
    (h_enabled : st.use_restricted_data_cache = true)
    (h_ensured : st.ensured = true)
    (h_lock : st.provider.locks.contains (restrictedLockName user_id) = false) :
    update_restricted_data cachables st user_id =
      refreshCore cachables
        { st with provider :=
          { st.provider with locks := restrictedLockName user_id :: st.provider.locks } }
        user_id := by
  have hset : st.provider.set_lock (restrictedLockName user_id) =
      ({ st.provider with locks := restrictedLockName user_id :: st.provider.locks }, true) := by
    unfold ProviderState.set_lock
    rw [h_lock]
    rfl
  simp only [update_restricted_data, h_enabled, h_ensured, Bool.not_true,
    Bool.false_eq_true, if_false, hset]

theorem update_restricted_data_blocked (cachables : List Cachable) (st : CacheState)
    (user_id : Int)
    (h_enabled : st.use_restricted_data_cache = true)
    (h_ensured : st.ensured = true)
    (h_lock : st.provider.locks.contains (restrictedLockName user_id) = true) :
    update_restricted_data cachables st user_id = Res.blocked := by
  have hset : st.provider.set_lock (restrictedLockName user_id) = (st.provider, false) := by
    unfold ProviderState.set_lock
    rw [h_lock]
    rfl
  simp only [update_restricted_data, h_enabled, h_ensured, Bool.not_true,
    Bool.false_eq_true, if_false, hset]

theorem sinceStep_mono (store : List (String × JVal)) (l : List String)
    (acc : (List (String × List JVal)) × List String) (x : String) (h : x ∈ acc.2) :
    x ∈ (l.foldl (sinceStep store) acc).2 := by
  induction l generalizing acc with
  | nil => exact h
  | cons e rest ih =>
    refine ih (sinceStep store acc e) ?_
    unfold sinceStep
    rcases halu : alLookup store e with _ | v
    · exact List.mem_append_left _ h
    · exact h

theorem sinceStep_deleted (store : List (String × JVal)) (l : List String)
    (acc : (List (String × List JVal)) × List String) (eid : String)
    (hmem : eid ∈ l) (hnone : alLookup store eid = none) :
    eid ∈ (l.foldl (sinceStep store) acc).2 := by
  induction l generalizing acc with
  | nil => exact absurd hmem (by simp)
  | cons e rest ih =>
    rw [List.foldl_cons]
    rcases List.mem_cons.mp hmem with rfl | h2
    · refine sinceStep_mono store rest (sinceStep store acc eid) eid ?_
      unfold sinceStep
      rw [hnone]
      exact List.mem_append_right _ (by simp)
    · exact ih (sinceStep store acc e) h2

theorem lastScore_mem_ids (index : List (Int × String)) (eid : String) (sc : Int)
    (h : lastScore index eid = some sc) : eid ∈ index.map (fun e => e.2) := by
  unfold lastScore at h
  rcases hg : (index.filter (fun e => e.2 == eid)).getLast? with _ | e
  · rw [hg] at h; exact absurd h (by simp)
  · obtain ⟨hne, heq⟩ := List.mem_getLast?_eq_getLast (show e ∈ _ from hg)
    have hmem : e ∈ index.filter (fun x => x.2 == eid) := heq ▸ List.getLast_mem hne
    obtain ⟨hidx, hpred⟩ := List.mem_filter.mp hmem
    exact List.mem_map.mpr ⟨e, hidx, by simpa using hpred⟩

theorem get_data_since_deleted_mem (p : ProviderState) (change_id : Int)
    (user_id : Option Int) (max_change_id : Int) (eid : String) (sc : Int)
    (hl : lastScore p.change_index eid = some sc)
    (h1 : change_id ≤ sc)
    (h2 : max_change_id = -1 ∨ sc ≤ max_change_id)
    (hstore : alLookup (p.get_all_data user_id) eid = none) :
    eid ∈ (p.get_data_since change_id user_id max_change_id).2 := by
  unfold ProviderState.get_data_since
  refine sinceStep_deleted _ _ _ _ (List.mem_filter.mpr ⟨?_, ?_⟩) hstore
  · exact (dedupFirst_mem _ [] eid).mpr ⟨lastScore_mem_ids _ _ _ hl, by simp⟩
  · rw [hl]
    rcases h2 with rfl | hle
    · simp [h1]
    · simp [h1, hle]

theorem contains_filter_ne (l : List String) (a : String) :
    (l.filter (fun n => n != a)).contains a = false := by
  induction l with
  | nil => rfl
  | cons x xs ih =>
    by_cases hx : x = a
    · subst hx
      simp only [List.filter_cons, bne_self_eq_false, Bool.false_eq_true, if_false]
      exact ih
    · have hxa : (x != a) = true := bne_iff_ne.mpr hx
      simp only [List.filter_cons, hxa, if_pos, List.contains_cons, ih, Bool.or_false]
      simp [Ne.symm hx]

/-- When the user projection is already current, update_restricted_data
acquires and releases the refresh lock and leaves the state unchanged. -/
theorem update_restricted_data_current (cachables : List Cachable) (st' : CacheState)
    (uid : Int) (cur : Int)
    (h_enabled : st'.use_restricted_data_cache = true)
    (h_ensured : st'.ensured = true)
    (h_lock : st'.provider.locks.contains (restrictedLockName uid) = false)
    (h_ucid : userChangeId st' uid = cur)
    (h_cur : get_current_change_id st' = cur) :
    update_restricted_data cachables st' uid = Res.ok st' := by
  have h_upd := update_restricted_data_locked cachables st' uid h_enabled h_ensured h_lock
  have h_skip := refreshCore_skip cachables
    { st' with provider :=
      { st'.provider with locks := restrictedLockName uid :: st'.provider.locks } }
    uid cur cur h_ucid h_cur le_rfl
  rw [h_upd, h_skip]
  have hlocks : (restrictedLockName uid :: st'.provider.locks).filter
      (fun n => n != restrictedLockName uid) = st'.provider.locks := by
    rw [List.filter_cons]
    simp [filter_ne_of_not_contains _ _ h_lock]
  show Res.ok _ = Res.ok _
  congr 1
  ext : 2 <;> simp [ProviderState.del_lock, hlocks]

theorem get_full_data_ok_bounds (st : CacheState) (c m : Int)
    (fdel : (List (String × List JVal)) × List String)
    (hc : (c == 0) = false)
    (h : get_full_data st c m = Except.ok fdel) :
    ∃ lw, get_lowest_change_id st = Except.ok lw ∧ ¬(c < lw) := by
  unfold get_full_data at h
  rw [hc] at h
  simp only [Bool.false_eq_true, if_false] at h
  split at h
  · exact absurd h (by simp)
  · rename_i lw hL
    by_cases hlt : c < lw
    · rw [if_pos hlt] at h
      exact absurd h (by simp)
    · exact ⟨lw, hL, hlt⟩

theorem store_after_refresh_sentinel (mapping2 : List (String × JVal))
    (deleted2 : List String) (base : List (String × JVal)) (v : JVal)
    (h_map : alLookup mapping2 "_config:change_id" = none)
    (h_del : ¬ "_config:change_id" ∈ deleted2) :
    alLookup (deleted2.foldl alDel
        ((alSet mapping2 "_config:change_id" v).foldl (fun s kv => alSet s kv.1 kv.2) base))
      "_config:change_id" = some v := by
  rw [foldDel_not_mem _ _ _ h_del, alSet_append _ _ _ h_map, List.foldl_append]
  simp only [List.foldl_cons, List.foldl_nil]
  exact alLookup_alSet_self _ _ _

/-- The snapshot read of the all-restricted path when the user projection
is already current: the state passes through unchanged. -/
theorem get_all_restricted_data_current (cachables : List Cachable) (st' : CacheState)
    (uid : Int) (cur : Int)
    (h_enabled : st'.use_restricted_data_cache = true)
    (h_ensured : st'.ensured = true)
    (h_lock : st'.provider.locks.contains (restrictedLockName uid) = false)
    (h_ucid : userChangeId st' uid = cur)
    (h_cur : get_current_change_id st' = cur) :
    get_all_restricted_data cachables st' uid =
      Res.ok (st', restrictedSnapshot (st'.provider.get_all_data (some uid))) := by
  have h_upd := update_restricted_data_current cachables st' uid cur h_enabled h_ensured
    h_lock h_ucid h_cur
  simp only [get_all_restricted_data, h_enabled, Bool.not_true, Bool.false_eq_true,
    if_false, h_upd]

/-- The incremental restricted read when the user projection is already
current: lock cycled, state unchanged, delta served from getDataSince on
the user store. -/
theorem get_restricted_data_current (cachables : List Cachable) (st' : CacheState)
    (uid : Int) (change_id lw cur : Int)
    (h0 : (change_id == 0) = false)
    (h_enabled : st'.use_restricted_data_cache = true)
    (h_ensured : st'.ensured = true)
    (h_lock : st'.provider.locks.contains (restrictedLockName uid) = false)
    (h_low : get_lowest_change_id st' = Except.ok lw)
    (h_nlt : ¬(change_id < lw))
    (h_ucid : userChangeId st' uid = cur)
    (h_cur : get_current_change_id st' = cur) :
    get_restricted_data cachables st' uid change_id (-1) =
      Res.ok (st', st'.provider.get_data_since change_id (some uid) (-1)) := by
  have h_upd := update_restricted_data_current cachables st' uid cur h_enabled h_ensured
    h_lock h_ucid h_cur
  simp only [get_restricted_data, h0, Bool.false_eq_true, if_false, h_enabled,
    Bool.not_true, h_low, if_neg h_nlt, h_upd]

/-- C5: during update_restricted_data, every element id present in the
fetched full-data delta of a collection but absent from the permission
filter output for the user lands on the deletion list, is removed from the
user store, is reported as deleted by the next incremental restricted
read, and the refreshed snapshot is taken from a store that no longer
contains it. -/
theorem visibility_loss_deletion (cachables : List Cachable) (st : CacheState) (uid : Int)
    (ucid cur : Int) (fd : List (String × List JVal)) (del0 : List String)
    (mapping2 : List (String × JVal)) (deleted2 : List String)
    (coll : String) (colData : List JVal) (cab : Cachable) (restr : List JVal)
    (item_id sc : Int)
    (h_enabled : st.use_restricted_data_cache = true)
    (h_ensured : st.ensured = true)
    (h_lock : st.provider.locks.contains (restrictedLockName uid) = false)
    (h_ucid : userChangeId st uid = ucid)
    (h_cur : get_current_change_id st = cur)
    (h_gt : ucid < cur)
    (h_fd : get_full_data st (ucid + 1) (-1) = Except.ok (fd, del0))
    (h_loop : restrictLoop cachables uid fd [] del0 = Except.ok (mapping2, deleted2))
    (hmem : (coll, colData) ∈ fd)
    (hfind : cachables.find? (fun c => c.collection_string == coll) = some cab)
    (hrestr : cab.restrict_elements uid colData = Except.ok restr)
    (hid : item_id ∈ colData.map getId)
    (hlost : ¬ item_id ∈ restr.map getId)
    (h_pos : 0 ≤ ucid)
    (h_sent_map : alLookup mapping2 "_config:change_id" = none)
    (h_sent_del : ¬ "_config:change_id" ∈ deleted2)
    (h_last : lastScore st.provider.change_index (get_element_id coll item_id) = some sc)
    (h_sc : ucid + 1 ≤ sc) :
    ∃ st2,
      update_restricted_data cachables st uid = Res.ok st2 ∧
      get_element_id coll item_id ∈ deleted2 ∧
      alLookup (st2.provider.get_all_data (some uid)) (get_element_id coll item_id) = none ∧
      (∃ delta dels,
        get_restricted_data cachables st2 uid (ucid + 1) (-1) =
          Res.ok (st2, (delta, dels)) ∧
        get_element_id coll item_id ∈ dels) ∧
      get_all_restricted_data cachables st2 uid =
        Res.ok (st2, restrictedSnapshot (st2.provider.get_all_data (some uid))) := by
  have hG1 : get_element_id coll item_id ∈ deleted2 :=
    restrictLoop_lost_mem cachables uid fd [] del0 mapping2 deleted2 coll colData
      cab restr item_id h_loop hmem hfind hrestr hid hlost
  have h_upd := update_restricted_data_locked cachables st uid h_enabled h_ensured h_lock
  have h_core : refreshCore cachables
      { st with provider :=
        { st.provider with locks := restrictedLockName uid :: st.provider.locks } } uid =
      Res.ok (refreshedState st uid mapping2 deleted2 cur) :=
    refreshCore_refresh_ok cachables
      { st with provider :=
        { st.provider with locks := restrictedLockName uid :: st.provider.locks } }
      uid ucid cur fd del0 mapping2 deleted2 h_ucid h_cur h_gt h_fd h_loop
  have h_upd2 : update_restricted_data cachables st uid =
      Res.ok (refreshedState st uid mapping2 deleted2 cur) := h_upd.trans h_core
  have hG2 : alLookup
      ((refreshedState st uid mapping2 deleted2 cur).provider.get_all_data (some uid))
      (get_element_id coll item_id) = none := by
    unfold refreshedState
    simp only [ProviderState.get_all_data]
    rw [alLookup_alSet_self]
    exact foldDel_mem _ _ _ hG1
  have h_lock2 : (refreshedState st uid mapping2 deleted2 cur).provider.locks.contains
      (restrictedLockName uid) = false := contains_filter_ne _ _
  have h_ucid2 : userChangeId (refreshedState st uid mapping2 deleted2 cur) uid = cur := by
    have hs : (refreshedState st uid mapping2 deleted2 cur).provider.get_change_id_user uid
        = some (JVal.n cur) := by
      unfold refreshedState
      simp only [ProviderState.get_change_id_user]
      rw [alLookup_alSet_self]
      exact store_after_refresh_sentinel mapping2 deleted2 _ (JVal.n cur)
        h_sent_map h_sent_del
    unfold userChangeId
    rw [hs]
  have h_cur2 : get_current_change_id (refreshedState st uid mapping2 deleted2 cur) = cur :=
    h_cur
  have h0 : ((ucid + 1 : Int) == 0) = false := by
    simp only [beq_eq_false_iff_ne, ne_eq]
    omega
  obtain ⟨lw, hlow, hnlt⟩ := get_full_data_ok_bounds st (ucid + 1) (-1) (fd, del0) h0 h_fd
  have hlow2 : get_lowest_change_id (refreshedState st uid mapping2 deleted2 cur) =
      Except.ok lw := hlow
  have hread := get_restricted_data_current cachables
    (refreshedState st uid mapping2 deleted2 cur) uid (ucid + 1) lw cur
    h0 h_enabled h_ensured h_lock2 hlow2 hnlt h_ucid2 h_cur2
  have hdel : get_element_id coll item_id ∈
      ((refreshedState st uid mapping2 deleted2 cur).provider.get_data_since (ucid + 1)
        (some uid) (-1)).2 :=
    get_data_since_deleted_mem _ (ucid + 1) (some uid) (-1) (get_element_id coll item_id)
      sc h_last h_sc (Or.inl rfl) hG2
  have hsnap := get_all_restricted_data_current cachables
    (refreshedState st uid mapping2 deleted2 cur) uid cur
    h_enabled h_ensured h_lock2 h_ucid2 h_cur2
  exact ⟨refreshedState st uid mapping2 deleted2 cur, h_upd2, hG1, hG2,
    ⟨_, _, hread, hdel⟩, hsnap⟩

theorem visibility_loss_deletion_witness :
    ∃ st2,
      update_restricted_data hiddenCachables restrictedStale 7 = Res.ok st2 ∧
      get_element_id "motion" 1 ∈ ["motion:1"] ∧
      alLookup (st2.provider.get_all_data (some 7)) (get_element_id "motion" 1) = none ∧
      (∃ delta dels,
        get_restricted_data hiddenCachables st2 7 (100 + 1) (-1) =
          Res.ok (st2, (delta, dels)) ∧ get_element_id "motion" 1 ∈ dels) ∧
      get_all_restricted_data hiddenCachables st2 7 =
        Res.ok (st2, restrictedSnapshot (st2.provider.get_all_data (some 7))) :=
  visibility_loss_deletion hiddenCachables restrictedStale 7 100 101
    [("motion", [elTitleB])] [] [] ["motion:1"] "motion" [elTitleB]
    motionHiddenCachable [] 1 101
    rfl rfl rfl rfl rfl (by decide) rfl rfl (by simp) rfl rfl
    (List.mem_singleton.mpr rfl) (by simp) (by decide) rfl (by decide) rfl (by decide)

theorem restrictedSnapshot_eq_filtered (store : List (String × JVal)) :
    restrictedSnapshot store =
      snapshotGroupAll (store.filter
        (fun kv => !(startsWithChars kv.1.data "_config".data))) := by
  suffices h : ∀ out,
      store.foldl
        (fun out kv =>
          if startsWithChars kv.1.data "_config".data then out
          else groupAppend out (split_element_id kv.1).1 kv.2) out =
      (store.filter (fun kv => !(startsWithChars kv.1.data "_config".data))).foldl
        (fun out kv => groupAppend out (split_element_id kv.1).1 kv.2) out from
    h []
  induction store with
  | nil => intro out; rfl
  | cons kv rest ih =>
    intro out
    by_cases hc : startsWithChars kv.1.data "_config".data
    · simp only [List.foldl_cons, List.filter_cons, hc, if_pos, Bool.not_true,
        Bool.false_eq_true, if_false]
      exact ih out
    · have hcf : startsWithChars kv.1.data "_config".data = false := by
        revert hc
        cases startsWithChars kv.1.data "_config".data <;> simp
      simp only [List.foldl_cons, List.filter_cons, hcf, Bool.not_false,
        Bool.false_eq_true, if_false, if_true, List.foldl_cons]
      exact ih (groupAppend out (split_element_id kv.1).1 kv.2)

/-- C8: with restricted caching enabled, get_all_restricted_data refreshes
and then snapshots the user store; the store does hold the sentinel
change-id key written by update_restricted_data, yet the returned snapshot
equals the grouping of the store with every key starting with _config
removed, so the sentinel never appears in it. -/
theorem sentinel_excluded_from_snapshot (cachables : List Cachable) (st : CacheState)
    (uid : Int) (ucid cur : Int) (fd : List (String × List JVal)) (del0 : List String)
    (mapping2 : List (String × JVal)) (deleted2 : List String)
    (h_enabled : st.use_restricted_data_cache = true)
    (h_ensured : st.ensured = true)
    (h_lock : st.provider.locks.contains (restrictedLockName uid) = false)
    (h_ucid : userChangeId st uid = ucid)
    (h_cur : get_current_change_id st = cur)
    (h_gt : ucid < cur)
    (h_fd : get_full_data st (ucid + 1) (-1) = Except.ok (fd, del0))
    (h_loop : restrictLoop cachables uid fd [] del0 = Except.ok (mapping2, deleted2))
    (h_sent_map : alLookup mapping2 "_config:change_id" = none)
    (h_sent_del : ¬ "_config:change_id" ∈ deleted2) :
    ∃ st2 snap,
      get_all_restricted_data cachables st uid = Res.ok (st2, snap) ∧
      alLookup (st2.provider.get_all_data (some uid)) "_config:change_id"
        = some (JVal.n cur) ∧
      snap = snapshotGroupAll ((st2.provider.get_all_data (some uid)).filter
        (fun kv => !(startsWithChars kv.1.data "_config".data))) := by
  have h_upd := update_restricted_data_locked cachables st uid h_enabled h_ensured h_lock
  have h_core : refreshCore cachables
      { st with provider :=
        { st.provider with locks := restrictedLockName uid :: st.provider.locks } } uid =
      Res.ok (refreshedState st uid mapping2 deleted2 cur) :=
    refreshCore_refresh_ok cachables
      { st with provider :=
        { st.provider with locks := restrictedLockName uid :: st.provider.locks } }
      uid ucid cur fd del0 mapping2 deleted2 h_ucid h_cur h_gt h_fd h_loop
  have h_upd2 : update_restricted_data cachables st uid =
      Res.ok (refreshedState st uid mapping2 deleted2 cur) := h_upd.trans h_core
  refine ⟨refreshedState st uid mapping2 deleted2 cur,
    restrictedSnapshot
      ((refreshedState st uid mapping2 deleted2 cur).provider.get_all_data (some uid)),
    ?_, ?_, ?_⟩
  · simp only [get_all_restricted_data, h_enabled, Bool.not_true, Bool.false_eq_true,
      if_false, h_upd2]
  · unfold refreshedState
    simp only [ProviderState.get_all_data]
    rw [alLookup_alSet_self]
    exact store_after_refresh_sentinel mapping2 deleted2 _ (JVal.n cur)
      h_sent_map h_sent_del
  · exact restrictedSnapshot_eq_filtered _

theorem sentinel_excluded_from_snapshot_witness :
    ∃ st2 snap,
      get_all_restricted_data hiddenCachables restrictedStale 7 = Res.ok (st2, snap) ∧
      alLookup (st2.provider.get_all_data (some 7)) "_config:change_id"
        = some (JVal.n 101) ∧
      snap = snapshotGroupAll ((st2.provider.get_all_data (some 7)).filter
        (fun kv => !(startsWithChars kv.1.data "_config".data))) :=
  sentinel_excluded_from_snapshot hiddenCachables restrictedStale 7 100 101
    [("motion", [elTitleB])] [] [] ["motion:1"]
    rfl rfl rfl rfl rfl (by decide) rfl rfl rfl (by decide)

theorem ensure_cache_error_releases (cbs : List Cachable) (st3 : CacheState) (reset : Bool)
    (msg : String) (st4 : CacheState)
    (h : ensure_cache cbs st3 reset = Res.error msg st4) :
    st4.provider.locks.contains "ensure_cache" = false := by
  unfold ensure_cache at h
  split at h
  · split at h
    · split at h
      · simp only [Res.error.injEq] at h
        obtain ⟨h1, h2⟩ := h
        subst h2
        exact contains_filter_ne _ _
      · exact absurd h (by simp)
    · exact absurd h (by simp)
  · exact absurd h (by simp)



/-- C10: the refresh lock release in update_restricted_data is not
exception-protected: when the restriction loop raises inside the critical
section, the error state still holds the per-user refresh lock, and every
later update_restricted_data call for that user blocks forever; by
contrast a raise inside the ensure_cache build always leaves the build
lock released. -/
theorem refresh_lock_leak (cachables : List Cachable) (st : CacheState) (uid : Int)
    (ucid cur : Int) (fd : List (String × List JVal)) (del0 : List String) (e : String)
    (h_enabled : st.use_restricted_data_cache = true)
    (h_ensured : st.ensured = true)
    (h_lock : st.provider.locks.contains (restrictedLockName uid) = false)
    (h_ucid : userChangeId st uid = ucid)
    (h_cur : get_current_change_id st = cur)
    (h_gt : ucid < cur)
    (h_fd : get_full_data st (ucid + 1) (-1) = Except.ok (fd, del0))
    (h_loop : restrictLoop cachables uid fd [] del0 = Except.error e) :
    ∃ stBad,
      update_restricted_data cachables st uid = Res.error e stBad ∧
      stBad.provider.locks.contains (restrictedLockName uid) = true ∧
      (∀ cachables2 : List Cachable,
        update_restricted_data cachables2 stBad uid = Res.blocked) ∧
      (∀ (cbs : List Cachable) (st3 : CacheState) (reset : Bool) (msg : String)
          (st4 : CacheState), ensure_cache cbs st3 reset = Res.error msg st4 →
        st4.provider.locks.contains "ensure_cache" = false) := by
  have h_upd := update_restricted_data_locked cachables st uid h_enabled h_ensured h_lock
  have h_core := refreshCore_error cachables
    { st with provider :=
      { st.provider with locks := restrictedLockName uid :: st.provider.locks } }
    uid ucid cur fd del0 e h_ucid h_cur h_gt h_fd h_loop
  have h_in : ({ st with provider :=
      { st.provider with locks := restrictedLockName uid :: st.provider.locks } }
        : CacheState).provider.locks.contains (restrictedLockName uid) = true := by
    simp
  refine ⟨_, h_upd.trans h_core, h_in, ?_, ensure_cache_error_releases⟩
  intro cachables2
  exact update_restricted_data_blocked cachables2 _ uid h_enabled h_ensured h_in

theorem refresh_lock_leak_witness :
    ∃ stBad,
      update_restricted_data failingCachables restrictedStale 7 = Res.error "boom" stBad ∧
      stBad.provider.locks.contains (restrictedLockName 7) = true ∧
      (∀ cachables2 : List Cachable,
        update_restricted_data cachables2 stBad 7 = Res.blocked) ∧
      (∀ (cbs : List Cachable) (st3 : CacheState) (reset : Bool) (msg : String)
          (st4 : CacheState), ensure_cache cbs st3 reset = Res.error msg st4 →
        st4.provider.locks.contains "ensure_cache" = false) :=
  refresh_lock_leak failingCachables restrictedStale 7 100 101
    [("motion", [elTitleB])] [] "boom"
    rfl rfl rfl rfl rfl (by decide) rfl rfl
